import Mathlib

/-!
# Verification of the mod-three DFA repository

Shallow embedding of the Go sources of `fsm-modulo-three`:

* `fsm` package (generic finite-automaton engine): `FiniteAutomaton`,
  `ProcessInput`, `isValidSymbol`, `IsAcceptingState`, accessors.
* `modthree` package: `NewModThreeFSM` (the fixed 3-state automaton),
  `ModThree`, `validateInput`, `stateToRemainder`.

Go strings are embedded as Lean `String`, iterated as their character
lists (all inputs of interest are ASCII, so the Go byte positions coincide
with character positions).  Fallible Go functions returning `(T, error)`
become `Except`-valued functions; the distinct `error` values produced by
`fmt.Errorf` in the sources become constructors of explicit error types.
-/

namespace Fsm

/-- Go: `type State string` (an opaque comparable label). -/
abbrev State := String

/-- Go: `type Symbol string`. -/
abbrev Symbol := String

/-- Error produced by the engine: `invalid symbol '%s' at position %d`. -/
inductive FSMError : Type
  | invalidSymbol (symbol : Symbol) (pos : Nat)
  deriving DecidableEq, Repr

/-- Go: the `FiniteAutomaton` struct — the DFA 5-tuple. -/
structure FiniteAutomaton : Type where
  States : List State
  Alphabet : List Symbol
  InitialState : State
  AcceptingStates : List State
  TransitionFunction : State → Symbol → State

/-- Go: `NewFiniteAutomaton` — plain construction, no validation. -/
def NewFiniteAutomaton (states : List State) (alphabet : List Symbol)
    (initialState : State) (acceptingStates : List State)
    (transitionFunction : State → Symbol → State) : FiniteAutomaton :=
  { States := states
    Alphabet := alphabet
    InitialState := initialState
    AcceptingStates := acceptingStates
    TransitionFunction := transitionFunction }

/-- Go: `isValidSymbol` — linear scan of the alphabet slice. -/
def FiniteAutomaton.isValidSymbol (fa : FiniteAutomaton) (symbol : Symbol) : Bool :=
  fa.Alphabet.contains symbol

/-- The loop body of Go's `ProcessInput`: consume the remaining characters,
`i` being the position of the first of them in the whole input.  Each
character is turned into a one-character `Symbol` (Go: `Symbol(string(char))`),
validated against the alphabet, and fed to the transition function. -/
def FiniteAutomaton.processFrom (fa : FiniteAutomaton) :
    State → Nat → List Char → Except FSMError State
  | st, _, [] => .ok st
  | st, i, c :: rest =>
    let symbol : Symbol := String.mk [c]
    if fa.isValidSymbol symbol then
      fa.processFrom (fa.TransitionFunction st symbol) (i + 1) rest
    else
      .error (.invalidSymbol symbol i)

/-- Go: `ProcessInput` — start at the initial state and scan the input
left to right, failing on the first symbol outside the alphabet. -/
def FiniteAutomaton.ProcessInput (fa : FiniteAutomaton) (input : String) :
    Except FSMError State :=
  fa.processFrom fa.InitialState 0 input.toList

/-- Go: `IsAcceptingState` — linear membership scan. -/
def FiniteAutomaton.IsAcceptingState (fa : FiniteAutomaton) (state : State) : Bool :=
  fa.AcceptingStates.contains state

/-- Go: `GetStates`. -/
def FiniteAutomaton.GetStates (fa : FiniteAutomaton) : List State := fa.States

/-- Go: `GetAlphabet`. -/
def FiniteAutomaton.GetAlphabet (fa : FiniteAutomaton) : List Symbol := fa.Alphabet

/-- Go: `GetInitialState`. -/
def FiniteAutomaton.GetInitialState (fa : FiniteAutomaton) : State := fa.InitialState

/-- Go: `GetAcceptingStates`. -/
def FiniteAutomaton.GetAcceptingStates (fa : FiniteAutomaton) : List State :=
  fa.AcceptingStates

end Fsm

namespace ModThree

open Fsm

/-- The distinct failures of the `modthree` package, one constructor per
`fmt.Errorf` site in `ModThree`/`validateInput`. -/
inductive ModThreeError : Type
  | emptyInput
  | invalidDigit (c : Char) (pos : Nat)
  | fsmProcessing (e : FSMError)
  | parseFailure
  | mismatch (got expected : Int)
  deriving DecidableEq, Repr

/-- Go: the `ModThreeResult` struct. -/
structure ModThreeResult : Type where
  Input : String
  FinalState : State
  Remainder : Int
  BinaryValue : Int
  DecimalValue : Int
  deriving DecidableEq, Repr

/-- The transition function literal inside Go's `NewModThreeFSM`:
nested switch on the state label, then on the symbol; any combination the
switch does not cover returns the current state unchanged. -/
def modThreeTransition (currentState : State) (symbol : Symbol) : State :=
  if currentState = "S0" then
    if symbol = "0" then "S0"
    else if symbol = "1" then "S1"
    else currentState
  else if currentState = "S1" then
    if symbol = "0" then "S2"
    else if symbol = "1" then "S0"
    else currentState
  else if currentState = "S2" then
    if symbol = "0" then "S1"
    else if symbol = "1" then "S2"
    else currentState
  else currentState

/-- Go: `NewModThreeFSM` — the fixed 3-state automaton over {"0","1"}. -/
def newModThreeFSM : FiniteAutomaton :=
  NewFiniteAutomaton ["S0", "S1", "S2"] ["0", "1"] "S0" ["S0", "S1", "S2"]
    modThreeTransition

/-- The loop of Go's `validateInput`: scan the remaining characters,
`i` the position of the first of them, and fail on the first character
that is neither '0' nor '1'. -/
def validateFrom : Nat → List Char → Except ModThreeError Unit
  | _, [] => .ok ()
  | i, c :: rest =>
    if c ≠ '0' ∧ c ≠ '1' then .error (.invalidDigit c i)
    else validateFrom (i + 1) rest

/-- Go: `validateInput` — reject the empty string, then scan the whole
string for a character outside {'0','1'}. -/
def validateInput (input : String) : Except ModThreeError Unit :=
  if input = "" then .error .emptyInput
  else validateFrom 0 input.toList

/-- Go: `stateToRemainder` — the fixed state → remainder table with the
defensive `-1` default. -/
def stateToRemainder (state : State) : Int :=
  if state = "S0" then 0
  else if state = "S1" then 1
  else if state = "S2" then 2
  else -1

/-- The numeric value with most-significant-bit-first accumulation, the
arithmetic meaning of a list of binary digit characters. -/
def binValue (cs : List Char) : Nat :=
  cs.foldl (fun acc c => 2 * acc + (if c = '1' then 1 else 0)) 0

/-- Modelled from the Go standard library: `strconv.ParseInt(input, 2, 64)`
as called by `ModThree`.  For base 2 and bit size 64 it succeeds exactly on
non-empty strings of '0'/'1' digits (an optional sign never occurs on the
inputs `ModThree` feeds it, since they have already passed `validateInput`)
whose value fits in a signed 64-bit integer, i.e. is at most `2^63 - 1`;
otherwise it reports a syntax or range error.  `ModThree` wraps any such
error as its single `failed to parse binary string` failure. -/
def parseBinaryInt64 (input : String) : Except ModThreeError Int :=
  if input = "" then .error .parseFailure
  else if input.toList.all (fun c => c = '0' || c = '1') then
    if binValue input.toList < 2 ^ 63 then .ok (binValue input.toList)
    else .error .parseFailure
  else .error .parseFailure

/-- Go: `ModThree` — validate, run the automaton, map the final state to a
remainder, parse the input as a base-2 integer, cross-check, and assemble
the result.  Each Go early `return nil, err` becomes an `Except.error`. -/
def ModThree (input : String) : Except ModThreeError ModThreeResult :=
  match validateInput input with
  | .error e => .error e
  | .ok _ =>
    match newModThreeFSM.ProcessInput input with
    | .error e => .error (.fsmProcessing e)
    | .ok finalState =>
      let remainder := stateToRemainder finalState
      match parseBinaryInt64 input with
      | .error e => .error e
      | .ok binaryValue =>
        let expectedRemainder := binaryValue % 3
        if remainder ≠ expectedRemainder then
          .error (.mismatch remainder expectedRemainder)
        else
          .ok { Input := input
                FinalState := finalState
                Remainder := remainder
                BinaryValue := binaryValue
                DecimalValue := binaryValue }

end ModThree

/-! ## Helper lemmas about the embedded definitions -/

namespace ModThree

open Fsm

lemma ne_empty_iff_toList (s : String) : s ≠ "" ↔ s.toList ≠ [] := by
  constructor
  · intro h hnil
    exact h (String.ext hnil)
  · intro h he
    subst he
    exact h rfl

/-- The state the mod-three automaton should be in after consuming a prefix
of value `n`. -/
def stateOfMod (n : Nat) : State :=
  if n % 3 = 0 then "S0" else if n % 3 = 1 then "S1" else "S2"

/-- Pure left-to-right run of the mod-three transition function. -/
def runTrans (st : State) (cs : List Char) : State :=
  cs.foldl (fun s c => modThreeTransition s (String.mk [c])) st

lemma runTrans_nil (st : State) : runTrans st [] = st := rfl

lemma runTrans_cons (st : State) (c : Char) (cs : List Char) :
    runTrans st (c :: cs) = runTrans (modThreeTransition st (String.mk [c])) cs := rfl

lemma isValidSymbol_of_bin {c : Char} (h : c = '0' ∨ c = '1') :
    newModThreeFSM.isValidSymbol (String.mk [c]) = true := by
  rcases h with rfl | rfl <;> rfl

lemma processFrom_ok (cs : List Char) (h : ∀ c ∈ cs, c = '0' ∨ c = '1') :
    ∀ (st : State) (i : Nat),
      newModThreeFSM.processFrom st i cs = .ok (runTrans st cs) := by
  induction cs with
  | nil => intro st i; rfl
  | cons c rest ih =>
    intro st i
    have hc : c = '0' ∨ c = '1' := h c (List.mem_cons_self c rest)
    have hrest : ∀ x ∈ rest, x = '0' ∨ x = '1' :=
      fun x hx => h x (List.mem_cons_of_mem c hx)
    rw [FiniteAutomaton.processFrom]
    simp only [isValidSymbol_of_bin hc, if_true, runTrans_cons]
    exact ih hrest _ _

lemma step_stateOfMod (a : Nat) {c : Char} (h : c = '0' ∨ c = '1') :
    modThreeTransition (stateOfMod a) (String.mk [c]) =
      stateOfMod (2 * a + (if c = '1' then 1 else 0)) := by
  have h3 : a % 3 = 0 ∨ a % 3 = 1 ∨ a % 3 = 2 := by omega
  rcases h with rfl | rfl <;> rcases h3 with h3 | h3 | h3 <;>
    [ (have hm : 2 * a % 3 = 0 := by omega);
      (have hm : 2 * a % 3 = 2 := by omega);
      (have hm : 2 * a % 3 = 1 := by omega);
      (have hm : (2 * a + 1) % 3 = 1 := by omega);
      (have hm : (2 * a + 1) % 3 = 0 := by omega);
      (have hm : (2 * a + 1) % 3 = 2 := by omega)] <;>
    simp [stateOfMod, modThreeTransition, h3, hm]

lemma runTrans_stateOfMod (cs : List Char) :
    ∀ a : Nat, (∀ c ∈ cs, c = '0' ∨ c = '1') →
      runTrans (stateOfMod a) cs =
        stateOfMod (cs.foldl (fun acc c => 2 * acc + (if c = '1' then 1 else 0)) a) := by
  induction cs with
  | nil => intro a _; rfl
  | cons c rest ih =>
    intro a h
    have hc : c = '0' ∨ c = '1' := h c (List.mem_cons_self c rest)
    rw [runTrans_cons, step_stateOfMod a hc, List.foldl_cons]
    exact ih _ (fun x hx => h x (List.mem_cons_of_mem c hx))

lemma stateOfMod_zero : stateOfMod 0 = "S0" := rfl

lemma initial_eq : newModThreeFSM.InitialState = stateOfMod 0 := rfl

lemma processInput_bin (s : String) (h : ∀ c ∈ s.toList, c = '0' ∨ c = '1') :
    newModThreeFSM.ProcessInput s = .ok (stateOfMod (binValue s.toList)) := by
  rw [FiniteAutomaton.ProcessInput, processFrom_ok s.toList h, initial_eq,
      runTrans_stateOfMod s.toList 0 h]
  rfl

lemma stateToRemainder_stateOfMod (n : Nat) :
    stateToRemainder (stateOfMod n) = ((n % 3 : Nat) : Int) := by
  have h3 : n % 3 = 0 ∨ n % 3 = 1 ∨ n % 3 = 2 := by omega
  rcases h3 with h3 | h3 | h3 <;> simp [stateOfMod, stateToRemainder, h3]

lemma validateFrom_ok (cs : List Char) (h : ∀ c ∈ cs, c = '0' ∨ c = '1') :
    ∀ i : Nat, validateFrom i cs = .ok () := by
  induction cs with
  | nil => intro i; rfl
  | cons c rest ih =>
    intro i
    have hc : c = '0' ∨ c = '1' := h c (List.mem_cons_self c rest)
    rw [validateFrom]
    have hcond : ¬(c ≠ '0' ∧ c ≠ '1') := by
      rcases hc with rfl | rfl <;> simp
    rw [if_neg hcond]
    exact ih (fun x hx => h x (List.mem_cons_of_mem c hx)) _

lemma validateFrom_ok_all (cs : List Char) :
    ∀ i : Nat, validateFrom i cs = .ok () → ∀ c ∈ cs, c = '0' ∨ c = '1' := by
  induction cs with
  | nil => intro i _ c hc; exact absurd hc (List.not_mem_nil c)
  | cons a rest ih =>
    intro i hok c hc
    rw [validateFrom] at hok
    by_cases hcond : a ≠ '0' ∧ a ≠ '1'
    · rw [if_pos hcond] at hok
      exact absurd hok (by simp)
    · rw [if_neg hcond] at hok
      rcases List.mem_cons.mp hc with rfl | hmem
      · by_cases h0 : c = '0'
        · exact Or.inl h0
        · exact Or.inr (by tauto)
      · exact ih (i + 1) hok c hmem

lemma validateInput_ok (s : String) (hne : s ≠ "")
    (h : ∀ c ∈ s.toList, c = '0' ∨ c = '1') : validateInput s = .ok () := by
  rw [validateInput, if_neg hne]
  exact validateFrom_ok s.toList h 0

lemma validateFrom_first_invalid (cs : List Char) :
    ∀ (i j : Nat) (c : Char), cs[j]? = some c → ¬(c = '0' ∨ c = '1') →
      (∀ d ∈ cs.take j, d = '0' ∨ d = '1') →
      validateFrom i cs = .error (.invalidDigit c (i + j)) := by
  induction cs with
  | nil => intro i j c hj _ _; simp at hj
  | cons a rest ih =>
    intro i j c hj hc hfirst
    match j with
    | 0 =>
      have ha : a = c := by simpa using hj
      subst ha
      rw [validateFrom, if_pos (by tauto), Nat.add_zero]
    | j' + 1 =>
      have ha : a = '0' ∨ a = '1' := hfirst a (by simp)
      have hcond : ¬(a ≠ '0' ∧ a ≠ '1') := by
        rcases ha with rfl | rfl <;> simp
      rw [validateFrom, if_neg hcond]
      have hrec := ih (i + 1) j' c (by simpa using hj) hc
        (fun d hd => hfirst d (by simp [hd]))
      rw [hrec]
      have : i + 1 + j' = i + (j' + 1) := by omega
      rw [this]

lemma parseBinaryInt64_ok (s : String) (hne : s ≠ "")
    (h : ∀ c ∈ s.toList, c = '0' ∨ c = '1') (hfit : binValue s.toList < 2 ^ 63) :
    parseBinaryInt64 s = .ok ((binValue s.toList : Nat) : Int) := by
  have hall : s.toList.all (fun c => c = '0' || c = '1') = true := by
    rw [List.all_eq_true]
    intro c hc
    rcases h c hc with rfl | rfl <;> simp
  rw [parseBinaryInt64, if_neg hne, hall, if_pos (by trivial), if_pos hfit]

lemma parseBinaryInt64_range_error (s : String) (hne : s ≠ "")
    (h : ∀ c ∈ s.toList, c = '0' ∨ c = '1') (hof : 2 ^ 63 ≤ binValue s.toList) :
    parseBinaryInt64 s = .error .parseFailure := by
  have hall : s.toList.all (fun c => c = '0' || c = '1') = true := by
    rw [List.all_eq_true]
    intro c hc
    rcases h c hc with rfl | rfl <;> simp
  rw [parseBinaryInt64, if_neg hne, hall, if_pos (by trivial),
      if_neg (by omega)]

/-- For a validated input whose value fits in `int64`, `ModThree` runs to
completion and the assembled result is fully determined by the value. -/
lemma modThree_ok_of_bin (s : String) (hne : s ≠ "")
    (hbin : ∀ c ∈ s.toList, c = '0' ∨ c = '1')
    (hfit : binValue s.toList < 2 ^ 63) :
    ModThree s = .ok { Input := s
                       FinalState := stateOfMod (binValue s.toList)
                       Remainder := ((binValue s.toList : Nat) : Int) % 3
                       BinaryValue := ((binValue s.toList : Nat) : Int)
                       DecimalValue := ((binValue s.toList : Nat) : Int) } := by
  have hrem : stateToRemainder (stateOfMod (binValue s.toList)) =
      ((binValue s.toList : Nat) : Int) % 3 := by
    rw [stateToRemainder_stateOfMod, Int.ofNat_emod]
    rfl
  rw [ModThree, validateInput_ok s hne hbin, processInput_bin s hbin,
      parseBinaryInt64_ok s hne hbin hfit]
  simp only [hrem, ne_eq, not_true_eq_false, if_neg, ite_false]

/-- For a validated input whose value overflows `int64`, `ModThree` fails
at the parse step. -/
lemma modThree_range_error (s : String) (hne : s ≠ "")
    (hbin : ∀ c ∈ s.toList, c = '0' ∨ c = '1')
    (hof : 2 ^ 63 ≤ binValue s.toList) :
    ModThree s = .error .parseFailure := by
  rw [ModThree, validateInput_ok s hne hbin, processInput_bin s hbin,
      parseBinaryInt64_range_error s hne hbin hof]

/-- A validation failure propagates unchanged out of `ModThree`. -/
lemma modThree_validate_error (s : String) (e : ModThreeError)
    (h : validateInput s = .error e) : ModThree s = .error e := by
  rw [ModThree, h]

lemma stateOfMod_mem_states (n : Nat) : stateOfMod n ∈ newModThreeFSM.States := by
  have h3 : n % 3 = 0 ∨ n % 3 = 1 ∨ n % 3 = 2 := by omega
  rcases h3 with h3 | h3 | h3 <;> simp [stateOfMod, h3, newModThreeFSM, NewFiniteAutomaton]

lemma runTrans_from_initial_mem (cs : List Char) (h : ∀ c ∈ cs, c = '0' ∨ c = '1') :
    runTrans newModThreeFSM.InitialState cs ∈ newModThreeFSM.States := by
  rw [initial_eq, runTrans_stateOfMod cs 0 h]
  exact stateOfMod_mem_states _

lemma foldl_binDigits_lower (cs : List Char) :
    ∀ a : Nat, a * 2 ^ cs.length ≤
      cs.foldl (fun acc c => 2 * acc + (if c = '1' then 1 else 0)) a := by
  induction cs with
  | nil => intro a; simp
  | cons c rest ih =>
    intro a
    rw [List.foldl_cons]
    calc a * 2 ^ (c :: rest).length
        ≤ (2 * a + (if c = '1' then 1 else 0)) * 2 ^ rest.length := by
          by_cases hc : c = '1' <;>
            simp [hc, List.length_cons, pow_succ] <;> ring_nf <;> nlinarith [Nat.pos_pow_of_pos rest.length (by norm_num : 0 < 2)]
      _ ≤ rest.foldl (fun acc c => 2 * acc + (if c = '1' then 1 else 0))
            (2 * a + (if c = '1' then 1 else 0)) := ih _

lemma binValue_head_one (cs : List Char) (c : Char) (hc : c = '1') :
    2 ^ cs.length ≤ binValue (c :: cs) := by
  subst hc
  have := foldl_binDigits_lower cs 1
  simpa [binValue] using this

lemma toList_cons_zero (s : String) : ("0" ++ s).toList = '0' :: s.toList := by
  show ("0" ++ s).data = '0' :: s.data
  rw [String.data_append]
  rfl

lemma binValue_cons_zero (cs : List Char) : binValue ('0' :: cs) = binValue cs := by
  simp [binValue]

lemma zero_append_ne_empty (s : String) : ("0" ++ s) ≠ "" := by
  rw [ne_empty_iff_toList, toList_cons_zero]
  simp

end ModThree

/-! ## Claim theorems -/

namespace Claims

open Fsm ModThree

/-- C1: For every non-empty input string of '0'/'1' characters whose value
fits the signed 64-bit integer width, `ModThree` succeeds — in particular
the `VerificationMismatch` branch never fires — and the remainder of the
result equals the input parsed as a base-2 integer taken modulo 3. -/
theorem c1_arithmetic_equivalence (s : String) (hne : s ≠ "")
    (hbin : ∀ c ∈ s.toList, c = '0' ∨ c = '1')
    (hfit : binValue s.toList < 2 ^ 63) :
    ∃ r : ModThreeResult, ModThree s = .ok r ∧
      r.Remainder = ((binValue s.toList : Nat) : Int) % 3 :=
  ⟨_, modThree_ok_of_bin s hne hbin hfit, rfl⟩

/-- Witness for C1 at the spec's literal scenario "1101" (13 mod 3 = 1). -/
theorem c1_arithmetic_equivalence_witness :
    ∃ r : ModThreeResult, ModThree "1101" = .ok r ∧
      r.Remainder = ((binValue ("1101" : String).toList : Nat) : Int) % 3 :=
  c1_arithmetic_equivalence "1101" (by decide) (by decide) (by decide)

/-- C2: The mod-three transition function realises exactly the fixed table
(S0: 0↦S0, 1↦S1; S1: 0↦S2, 1↦S0; S2: 0↦S1, 1↦S2), it maps states of the
automaton and symbols of its alphabet back into the state set, and hence
membership in {S0,S1,S2} is preserved along every run that starts at the
initial state S0. -/
theorem c2_transition_total_table :
    (modThreeTransition "S0" "0" = "S0" ∧ modThreeTransition "S0" "1" = "S1" ∧
     modThreeTransition "S1" "0" = "S2" ∧ modThreeTransition "S1" "1" = "S0" ∧
     modThreeTransition "S2" "0" = "S1" ∧ modThreeTransition "S2" "1" = "S2") ∧
    (∀ st sym, st ∈ newModThreeFSM.States → sym ∈ newModThreeFSM.Alphabet →
       newModThreeFSM.TransitionFunction st sym ∈ newModThreeFSM.States) ∧
    (∀ cs : List Char, (∀ c ∈ cs, c = '0' ∨ c = '1') →
       runTrans newModThreeFSM.InitialState cs ∈ newModThreeFSM.States) := by
  refine ⟨by decide, ?_, runTrans_from_initial_mem⟩
  intro st sym hst hsym
  have hst' : st = "S0" ∨ st = "S1" ∨ st = "S2" := by
    simpa [newModThreeFSM, NewFiniteAutomaton] using hst
  have hsym' : sym = "0" ∨ sym = "1" := by
    simpa [newModThreeFSM, NewFiniteAutomaton] using hsym
  rcases hst' with rfl | rfl | rfl <;> rcases hsym' with rfl | rfl <;> decide

/-- Witness for C2: the totality statement applied at state S1 and
symbol "0". -/
theorem c2_transition_total_table_witness :
    newModThreeFSM.TransitionFunction "S1" "0" ∈ newModThreeFSM.States :=
  c2_transition_total_table.2.1 "S1" "0" (by decide) (by decide)

/-- C3: For an input whose character at position `j` is the first one
(scanning left to right) that is neither '0' nor '1', `ModThree` fails with
`InvalidDigit` carrying that character and that zero-based position. -/
theorem c3_invalid_digit_first_position (s : String) (c : Char) (j : Nat)
    (hj : s.toList[j]? = some c) (hc : ¬(c = '0' ∨ c = '1'))
    (hfirst : ∀ d ∈ s.toList.take j, d = '0' ∨ d = '1') :
    ModThree s = .error (.invalidDigit c j) := by
  have hne : s ≠ "" := by
    rw [ne_empty_iff_toList]
    intro hnil
    rw [hnil] at hj
    simp at hj
  have hv : validateInput s = .error (.invalidDigit c (0 + j)) := by
    rw [validateInput, if_neg hne]
    exact validateFrom_first_invalid s.toList 0 j c hj hc hfirst
  rw [Nat.zero_add] at hv
  exact modThree_validate_error s _ hv

/-- Witness for C3 at the spec's three examples: "102" reports position 2,
"a" position 0, "01a" position 2. -/
theorem c3_invalid_digit_first_position_witness :
    ModThree "102" = .error (.invalidDigit '2' 2) ∧
    ModThree "a" = .error (.invalidDigit 'a' 0) ∧
    ModThree "01a" = .error (.invalidDigit 'a' 2) :=
  ⟨c3_invalid_digit_first_position "102" '2' 2 (by decide) (by decide) (by decide),
   c3_invalid_digit_first_position "a" 'a' 0 (by decide) (by decide) (by decide),
   c3_invalid_digit_first_position "01a" 'a' 2 (by decide) (by decide) (by decide)⟩

/-- C4: For every automaton, `ProcessInput` on the empty input is not a
failure: it returns the initial state unchanged. -/
theorem c4_process_empty_returns_initial (fa : FiniteAutomaton) :
    fa.ProcessInput "" = .ok fa.InitialState := rfl

/-- Witness for C4 at the concrete mod-three automaton. -/
theorem c4_process_empty_returns_initial_witness :
    newModThreeFSM.ProcessInput "" = .ok newModThreeFSM.InitialState :=
  c4_process_empty_returns_initial newModThreeFSM

/-- C5: `ModThree` on the empty string fails with `EmptyInput`; no result
is produced and the automaton is never consulted (the validation error is
raised before `ProcessInput`). -/
theorem c5_empty_string_rejected : ModThree "" = .error .emptyInput := rfl

/-- C6: `stateToRemainder` is pure and total: S0 ↦ 0, S1 ↦ 1, S2 ↦ 2, and
every other state label ↦ the sentinel -1. -/
theorem c6_state_to_remainder_table :
    stateToRemainder "S0" = 0 ∧ stateToRemainder "S1" = 1 ∧
    stateToRemainder "S2" = 2 ∧
    ∀ st : State, st ≠ "S0" → st ≠ "S1" → st ≠ "S2" → stateToRemainder st = -1 := by
  refine ⟨rfl, rfl, rfl, ?_⟩
  intro st h0 h1 h2
  simp [stateToRemainder, h0, h1, h2]

/-- Witness for C6: the sentinel case applied at the out-of-range label
"S3". -/
theorem c6_state_to_remainder_table_witness : stateToRemainder "S3" = -1 :=
  c6_state_to_remainder_table.2.2.2 "S3" (by decide) (by decide) (by decide)

/-- C7: Prepending a leading '0' to a non-empty binary string does not
change the outcome of `ModThree` as far as the remainder is concerned:
the remainders (viewed through the success projection) coincide. -/
theorem c7_leading_zero_invariance (s : String) (hne : s ≠ "")
    (hbin : ∀ c ∈ s.toList, c = '0' ∨ c = '1') :
    (ModThree ("0" ++ s)).toOption.map ModThreeResult.Remainder =
      (ModThree s).toOption.map ModThreeResult.Remainder := by
  have hbin' : ∀ c ∈ ("0" ++ s).toList, c = '0' ∨ c = '1' := by
    rw [toList_cons_zero]
    intro c hc
    rcases List.mem_cons.mp hc with rfl | h
    · exact Or.inl rfl
    · exact hbin c h
  have hval : binValue (("0" ++ s).toList) = binValue s.toList := by
    rw [toList_cons_zero, binValue_cons_zero]
  by_cases hfit : binValue s.toList < 2 ^ 63
  · rw [modThree_ok_of_bin s hne hbin hfit,
        modThree_ok_of_bin ("0" ++ s) (zero_append_ne_empty s) hbin'
          (by rw [hval]; exact hfit)]
    simp [Except.toOption, binValue_cons_zero]
  · rw [modThree_range_error s hne hbin (by omega),
        modThree_range_error ("0" ++ s) (zero_append_ne_empty s) hbin'
          (by rw [hval]; omega)]

/-- Witness for C7: `ModThree "00101"` and `ModThree "101"` agree on the
remainder, by chaining the theorem through "0101". -/
theorem c7_leading_zero_invariance_witness :
    (ModThree "00101").toOption.map ModThreeResult.Remainder =
      (ModThree "101").toOption.map ModThreeResult.Remainder := by
  have h1 := c7_leading_zero_invariance "0101" (by decide) (by decide)
  have h2 := c7_leading_zero_invariance "101" (by decide) (by decide)
  rw [show ("0" : String) ++ "0101" = "00101" from rfl] at h1
  rw [show ("0" : String) ++ "101" = "0101" from rfl] at h2
  exact h1.trans h2

/-- C8: Once the application-level validation has succeeded, the engine's
`ProcessInput` inside `ModThree` cannot fail: it returns some final state,
so the wrapped `InvalidSymbol` branch is unreachable. -/
theorem c8_engine_error_unreachable (s : String)
    (h : validateInput s = .ok ()) :
    ∃ st, newModThreeFSM.ProcessInput s = .ok st := by
  have hbin : ∀ c ∈ s.toList, c = '0' ∨ c = '1' := by
    rw [validateInput] at h
    by_cases hne : s = ""
    · rw [if_pos hne] at h
      exact absurd h (by simp)
    · rw [if_neg hne] at h
      exact validateFrom_ok_all s.toList 0 h
  exact ⟨_, processInput_bin s hbin⟩

/-- Witness for C8 at the validated input "101". -/
theorem c8_engine_error_unreachable_witness :
    ∃ st, newModThreeFSM.ProcessInput "101" = .ok st :=
  c8_engine_error_unreachable "101" rfl

/-- C10: Every non-empty all-binary input whose value does not fit a
signed 64-bit integer makes `ModThree` fail with the binary-parse error,
and in particular so does every input of 64 or more binary characters
that begins with '1'. -/
theorem c10_int64_overflow_parse_error :
    (∀ s : String, s ≠ "" → (∀ c ∈ s.toList, c = '0' ∨ c = '1') →
       2 ^ 63 ≤ binValue s.toList → ModThree s = .error .parseFailure) ∧
    (∀ s : String, (∀ c ∈ s.toList, c = '0' ∨ c = '1') →
       64 ≤ s.toList.length → s.toList.head? = some '1' →
       ModThree s = .error .parseFailure) := by
  constructor
  · exact modThree_range_error
  · intro s hbin hlen hhead
    obtain ⟨c, cs, hcons⟩ : ∃ c cs, s.toList = c :: cs := by
      cases hs : s.toList with
      | nil => rw [hs] at hhead; simp at hhead
      | cons a l => exact ⟨a, l, rfl⟩
    have hc1 : c = '1' := by
      rw [hcons] at hhead
      simpa using hhead
    have hne : s ≠ "" := by
      rw [ne_empty_iff_toList, hcons]
      simp
    have hlow : 2 ^ 63 ≤ binValue s.toList := by
      rw [hcons]
      have h1 : 2 ^ cs.length ≤ binValue (c :: cs) := binValue_head_one cs c hc1
      have h2 : 63 ≤ cs.length := by
        rw [hcons] at hlen
        simp at hlen
        omega
      calc 2 ^ 63 ≤ 2 ^ cs.length := Nat.pow_le_pow_right (by norm_num) h2
        _ ≤ _ := h1
    exact modThree_range_error s hne hbin hlow

/-- Witness for C10 at the 64-character input "1" followed by 63 zeros,
whose value is exactly 2^63. -/
theorem c10_int64_overflow_parse_error_witness :
    ModThree "1000000000000000000000000000000000000000000000000000000000000000" =
      .error .parseFailure :=
  c10_int64_overflow_parse_error.2
    "1000000000000000000000000000000000000000000000000000000000000000"
    (by decide) (by decide) (by decide)

end Claims
